import Mathlib

/-!
Verification of the Credify capture-orchestration core.

Shallow embedding of the browser-extension source:
- the dedup filter `isNewContent` (extension/utils, `recentTexts` set);
- the three result pollers (`startPolling` in the popup and results pages,
  `SessionManager.pollResults` in the content script);
- the background service worker (`startPipeline`, `stopPipeline`,
  `sendToBackend`, `autoSaveToBackend`, tab registry `state`);
- the offscreen audio recorder message handlers (`START_AUDIO` / `STOP_AUDIO`,
  `recorder.onstop`, the `isStopping` flag);
- `SessionManager` (`addEntry`, `autoSave`, `pollResults`, `finalizeSession`);
- the keyframe sweep `handleExtractKeyframes` in the content script.

JavaScript strings that are absent (`undefined`) behave like the empty string
in every truthiness test the embedded code performs, so optional string fields
are modelled as plain `String` with `""` for absent.  `Date.now()` and
`Math.random()` draws are explicit inputs of each operation.
-/

namespace Credify

/-! ### DedupCache (`isNewContent`, extension/utils)

The source keeps a JS `Set` named `recentTexts` in insertion order.  It is
modelled as a `List String` holding the admitted normalized strings, oldest
first.  JS `text.trim().toLowerCase()` is modelled character-wise. -/

/-- Whitespace stripped by JS `String.prototype.trim` on the texts in play. -/
def isSpaceChar (c : Char) : Bool := c = ' ' || c = '\t' || c = '\n' || c = '\r'

/-- Model of JS `trim`: drop whitespace from both ends of the character list. -/
def trimChars (l : List Char) : List Char :=
  ((l.dropWhile isSpaceChar).reverse.dropWhile isSpaceChar).reverse

/-- Model of `text.trim().toLowerCase()` performed by `isNewContent`. -/
def normalizeText (s : String) : String :=
  ⟨(trimChars s.data).map Char.toLower⟩

/-- Cache capacity `MAX_CACHE` from the source. -/
def MAX_CACHE : Nat := 20

/-- Model of `isNewContent(text)` with the capacity as an explicit parameter
(the source fixes it to `MAX_CACHE = 20`).  Returns whether the text was
admitted together with the updated cache.  Mirrors the source line by line:
empty / whitespace-only text is rejected without touching the cache, a cached
normalized string is rejected without reordering, otherwise the normalized
string is appended and, if the size now exceeds the capacity, the oldest
element (the first in insertion order) is deleted. -/
def dedupCheck (cap : Nat) (cache : List String) (text : String) :
    Bool × List String :=
  if trimChars text.data = [] then (false, cache)
  else if normalizeText text ∈ cache then (false, cache)
  else if cap < (cache ++ [normalizeText text]).length then
    (true, (cache ++ [normalizeText text]).drop 1)
  else (true, cache ++ [normalizeText text])

/-- Folding `dedupCheck` over a whole sequence of texts, starting (as the
source does) from the empty cache. -/
def dedupRun (cap : Nat) (texts : List String) : List String :=
  texts.foldl (fun cache t => (dedupCheck cap cache t).2) []

theorem dedupCheck_length_le (cap : Nat) (cache : List String) (t : String)
    (h : cache.length ≤ cap) : ((dedupCheck cap cache t).2).length ≤ cap := by
  unfold dedupCheck
  split
  · exact h
  · split
    · exact h
    · split
      · simp only [List.length_drop, List.length_append, List.length_cons,
          List.length_nil]
        omega
      · rename_i hlen
        simp only [List.length_append, List.length_cons, List.length_nil] at *
        omega

theorem dedupRun_length_le (cap : Nat) (texts : List String) :
    (dedupRun cap texts).length ≤ cap := by
  have aux : ∀ (ts : List String) (cache : List String),
      cache.length ≤ cap →
      (ts.foldl (fun cache t => (dedupCheck cap cache t).2) cache).length ≤ cap := by
    intro ts
    induction ts with
    | nil => intro cache h; exact h
    | cons t ts ih =>
        intro cache h
        exact ih _ (dedupCheck_length_le cap cache t h)
  exact aux texts [] (by simp)

theorem dedupCheck_mem_noop (cap : Nat) (cache : List String) (t : String)
    (h : normalizeText t ∈ cache) : dedupCheck cap cache t = (false, cache) := by
  by_cases he : trimChars t.data = []
  · unfold dedupCheck
    rw [if_pos he]
  · unfold dedupCheck
    rw [if_neg he, if_pos h]

theorem dedupCheck_evicts_oldest (cap : Nat) (cache : List String) (t : String)
    (hcap : cache.length = cap) (hpos : 0 < cap)
    (hmem : normalizeText t ∉ cache) (hne : ¬ trimChars t.data = []) :
    dedupCheck cap cache t = (true, cache.tail ++ [normalizeText t]) := by
  unfold dedupCheck
  rw [if_neg hne, if_neg hmem, if_pos (by simp [hcap])]
  cases cache with
  | nil => simp at hcap; omega
  | cons a l => simp

/-- C5: for every sequence of check operations on the dedup cache, the cache
never holds more than the configured capacity of normalized strings; a
re-check of a cached string leaves the cache unchanged (no reordering); and
admitting a fresh string while at a positive capacity evicts exactly the
oldest admitted string (the head of the insertion-ordered list), keeping the
rest in FIFO order. -/
theorem dedup_capacity_and_fifo (cap : Nat) (texts : List String)
    (cache : List String) (t : String) :
    (dedupRun cap texts).length ≤ cap ∧
    (normalizeText t ∈ cache → dedupCheck cap cache t = (false, cache)) ∧
    (cache.length = cap → 0 < cap → normalizeText t ∉ cache →
      ¬ trimChars t.data = [] →
      dedupCheck cap cache t = (true, cache.tail ++ [normalizeText t])) := by
  refine ⟨dedupRun_length_le cap texts, ?_, ?_⟩
  · exact dedupCheck_mem_noop cap cache t
  · intro h1 h2 h3 h4
    exact dedupCheck_evicts_oldest cap cache t h1 h2 h3 h4

/-- Witness for C5 at the source capacity's behaviour on concrete data:
capacity 2, cache at capacity `["a", "b"]`, fresh text `" C "` admitted,
evicting `"a"` and keeping FIFO order; re-check of `"b"` is a no-op. -/
theorem dedup_capacity_and_fifo_witness :
    (dedupRun 2 ["a", "b", "c"]).length ≤ 2 ∧
    dedupCheck 2 ["a", "b"] "b" = (false, ["a", "b"]) ∧
    dedupCheck 2 ["a", "b"] " C " = (true, ["b", "c"]) := by
  refine ⟨(dedup_capacity_and_fifo 2 ["a", "b", "c"] ["a", "b"] " C ").1, ?_, ?_⟩
  · exact (dedup_capacity_and_fifo 2 [] ["a", "b"] "b").2.1 (by decide)
  · have h := (dedup_capacity_and_fifo 2 [] ["a", "b"] " C ").2.2 (by decide)
      (by decide) (by decide) (by decide)
    calc dedupCheck 2 ["a", "b"] " C "
        = (true, ["a", "b"].tail ++ [normalizeText " C "]) := h
      _ = (true, ["b", "c"]) := by decide

/-! ### Result pollers

Three pollers query `/api/results/{session_id}`.  The popup and results-page
variants (`startPolling` in part_000 / part_001) run
`if (attempts++ > maxAttempts) timeout` on each 404, a post-increment
comparison against the old value.  The content-script variant
(`SessionManager.pollResults`) runs `attempts++` at the top of each tick and
checks `attempts >= maxAttempts` at the bottom.  Both are modelled as step
functions on the poll state, one application per consecutive not-ready (404)
response; once timed out the loop has returned, so further steps are the
identity. -/

structure PollSt where
  attempts : Nat
  timedOut : Bool
deriving DecidableEq, Repr

/-- Initial poll state: `let attempts = 0`, not timed out. -/
def pollInit : PollSt := { attempts := 0, timedOut := false }

/-- One 404 response in `startPolling` (part_000, `maxAttempts = 30`;
part_001, `maxAttempts = 150`): `if (attempts++ > maxAttempts)` compares the
old counter value, and the counter is incremented either way. -/
def popupPollStep (maxAttempts : Nat) (s : PollSt) : PollSt :=
  if s.timedOut then s
  else { attempts := s.attempts + 1, timedOut := decide (maxAttempts < s.attempts) }

/-- One 404 tick of `SessionManager.pollResults` (`maxAttempts = 30`):
`attempts++` runs first, the 404 branch does nothing, and the tick ends with
`if (attempts >= maxAttempts)` on the new value. -/
def smPollTick (maxAttempts : Nat) (s : PollSt) : PollSt :=
  if s.timedOut then s
  else
    let a := s.attempts + 1
    { attempts := a, timedOut := decide (maxAttempts ≤ a) }

theorem popupPollStep_iter (m : Nat) :
    ∀ k, k ≤ m + 1 → (popupPollStep m)^[k] pollInit = ⟨k, false⟩ := by
  intro k
  induction k with
  | zero => intro _; rfl
  | succ n ih =>
      intro h
      rw [Function.iterate_succ_apply', ih (by omega)]
      simp [popupPollStep, Nat.not_lt.mpr (by omega : n ≤ m)]

theorem smPollTick_iter (m : Nat) :
    ∀ k, k < m → (smPollTick m)^[k] pollInit = ⟨k, false⟩ := by
  intro k
  induction k with
  | zero => intro _; rfl
  | succ n ih =>
      intro h
      rw [Function.iterate_succ_apply', ih (by omega)]
      simp [smPollTick, Nat.not_le.mpr (by omega : n + 1 < m)]

/-- C1 counterexample: in the popup poller (part_000, `maxAttempts = 30`),
after exactly 30 consecutive not-ready responses the poller has not timed
out — nor after 31; it first reports the timeout on the 32nd consecutive
not-ready response, refuting "after exactly max_attempts, never more". -/
theorem poller_timed_out_counterexample :
    ((popupPollStep 30)^[30] pollInit).timedOut = false ∧
    ((popupPollStep 30)^[31] pollInit).timedOut = false ∧
    ((popupPollStep 30)^[32] pollInit).timedOut = true := by decide

/-- C1 (amended): the popup / results-page pollers (`startPolling`) reach the
timed-out state after exactly `maxAttempts + 2` consecutive not-ready
responses — never fewer (after any `k ≤ maxAttempts + 1` responses they are
still polling) and never more; `SessionManager.pollResults` reaches it after
exactly `maxAttempts` consecutive not-ready responses. -/
theorem poller_timeout_exact (m k : Nat) :
    (k ≤ m + 1 → (popupPollStep m)^[k] pollInit = ⟨k, false⟩) ∧
    (popupPollStep m)^[m + 2] pollInit = ⟨m + 2, true⟩ ∧
    (k < m → (smPollTick m)^[k] pollInit = ⟨k, false⟩) ∧
    (0 < m → (smPollTick m)^[m] pollInit = ⟨m, true⟩) := by
  refine ⟨popupPollStep_iter m k, ?_, smPollTick_iter m k, ?_⟩
  · have h : (popupPollStep m)^[m + 1] pollInit = ⟨m + 1, false⟩ :=
      popupPollStep_iter m (m + 1) (le_refl _)
    have hs : m + 2 = (m + 1) + 1 := rfl
    rw [hs, Function.iterate_succ_apply', h]
    simp [popupPollStep]
  · intro hm
    cases m with
    | zero => omega
    | succ n =>
        rw [Function.iterate_succ_apply', smPollTick_iter (n + 1) n (by omega)]
        simp [smPollTick]

/-- Witness for C1 (amended) at the source constants `maxAttempts = 30`:
still polling after 31 responses, timed out at 32 for the popup poller;
still polling after 29, timed out at 30 for `pollResults`. -/
theorem poller_timeout_exact_witness :
    (popupPollStep 30)^[31] pollInit = ⟨31, false⟩ ∧
    (popupPollStep 30)^[32] pollInit = ⟨32, true⟩ ∧
    (smPollTick 30)^[29] pollInit = ⟨29, false⟩ ∧
    (smPollTick 30)^[30] pollInit = ⟨30, true⟩ :=
  ⟨(poller_timeout_exact 30 31).1 (by omega),
   (poller_timeout_exact 30 31).2.1,
   (poller_timeout_exact 30 29).2.2.1 (by omega),
   (poller_timeout_exact 30 29).2.2.2 (by omega)⟩

/-! ### Background service worker (part_002)

The MV3 service worker keeps `state`, a JS `Map` from tab id to the per-tab
pipeline state `{ tabId, sessionId, startTime, entries, options }`.  The map
is modelled as an association list with one binding per key (`setTab` erases
the key first, mirroring `Map.set`'s replace semantics).  Outward effects
(runtime messages, `/api/save-session` posts) are collected in an event
trace.  `Date.now()` values are explicit `now` inputs; whether stream
acquisition (`ensureOffscreen` + `tabCapture.getMediaStreamId`) succeeds is
the explicit `audioOk` input. -/

/-- Options normalized and stored by `startPipeline`. -/
structure CaptureOptions where
  targetLanguage : String
  enableTranslation : Bool
  audioEnabled : Bool
  ocrEnabled : Bool
deriving DecidableEq, Repr

/-- Raw `options` payload of a `START_PIPELINE` message; `""` stands for an
absent `targetLanguage` (both are falsy in the `||` default). -/
structure RawOptions where
  targetLanguage : String
  enableTranslation : Bool
  audioEnabled : Bool
  ocrEnabled : Bool
deriving DecidableEq, Repr

/-- Normalization performed inside `state.set`: `targetLanguage || 'en'` and
double-negation on the three toggles. -/
def normalizeOptions (o : RawOptions) : CaptureOptions :=
  { targetLanguage := if o.targetLanguage = "" then "en" else o.targetLanguage,
    enableTranslation := o.enableTranslation,
    audioEnabled := o.audioEnabled,
    ocrEnabled := o.ocrEnabled }

/-- Subtitle entry pushed by `sendToBackend`: id `sub_${Date.now()}_${rand}`
is modelled by its two numeric components. -/
structure BgEntry where
  id : Nat × Nat
  timestamp_created : Nat
  source : String
  language : String
  text : String
  original_text : String
  confidence : ℚ
  timestamp_start : String
deriving DecidableEq, Repr

/-- Per-tab pipeline state stored in the service worker's `state` map. -/
structure BgSession where
  tabId : Nat
  sessionId : Nat
  startTime : Nat
  entries : List BgEntry
  options : CaptureOptions
deriving DecidableEq, Repr

/-- The `state` map: tab id to session, one binding per key. -/
abbrev BgState := List (Nat × BgSession)

/-- Model of `state.get(tabId)` / `state.has(tabId)`. -/
def lookupTab (st : BgState) (tab : Nat) : Option BgSession :=
  (st.find? (fun p => p.1 == tab)).map Prod.snd

/-- Model of `state.has(tabId)`. -/
def hasTab (st : BgState) (tab : Nat) : Bool :=
  (lookupTab st tab).isSome

/-- Model of `state.delete(tabId)` (under the Map's one-binding-per-key
semantics). -/
def eraseTab (st : BgState) (tab : Nat) : BgState :=
  st.filter (fun p => p.1 != tab)

/-- Model of `state.set(tabId, s)`: replaces any existing binding. -/
def setTab (st : BgState) (tab : Nat) (s : BgSession) : BgState :=
  eraseTab st tab ++ [(tab, s)]

/-- Number of bindings the map holds for a tab. -/
def countTab (st : BgState) (tab : Nat) : Nat :=
  (st.filter (fun p => p.1 == tab)).length

/-- Outward effects of the service worker, in program order. -/
inductive BgEvent where
  | stopAudioMsg (tab : Nat)
  | startAudioMsg (tab : Nat)
  | saveSession (sessionId : Nat) (numEntries : Nat) (trigger : Bool)
  | pipelineStartedMsg (tab : Nat)
  | pipelineStoppedMsg (tab : Nat)
  | sessionCreated (tab : Nat) (sessionId : Nat)
  | audioSubtitleMsg (tab : Nat)
deriving DecidableEq, Repr

/-- Result of `startPipeline` as seen by the message sender. -/
inductive StartResult where
  | ok
  | err (code : String)
deriving DecidableEq, Repr

/-- Model of `autoSaveToBackend(tabId, triggerPipeline)`: no-op when the tab
has no session, otherwise posts the serialized session; success or failure of
the post only logs, so the registry is unchanged either way. -/
def autoSaveToBackend (st : BgState) (tab : Nat) (trigger : Bool) : List BgEvent :=
  match lookupTab st tab with
  | none => []
  | some s => [BgEvent.saveSession s.sessionId s.entries.length trigger]

/-- Model of `stopPipeline(tabId)`: unconditionally signals `STOP_AUDIO`; if a
session exists, performs the final save with `trigger_pipeline = true` and
deletes the binding; always notifies `PIPELINE_STOPPED` and returns the old
session id (or `none`). -/
def stopPipeline (st : BgState) (tab : Nat) :
    BgState × List BgEvent × Option Nat :=
  match lookupTab st tab with
  | none =>
      (st, [BgEvent.stopAudioMsg tab, BgEvent.pipelineStoppedMsg tab], none)
  | some s =>
      (eraseTab st tab,
       [BgEvent.stopAudioMsg tab] ++ autoSaveToBackend st tab true ++
         [BgEvent.pipelineStoppedMsg tab],
       some s.sessionId)

/-- Model of `startPipeline(tabId, options)` with the tab id resolved.  If a
session already exists the pipeline is stopped first (settling delay elided —
it has no observable effect in this model).  The new session state is stored
in the map *before* audio acquisition is attempted; when audio is enabled and
acquisition fails, the function returns a structured error without announcing
`PIPELINE_STARTED` and without the initial autosave — but also without
removing the just-created binding. -/
def startPipeline (st : BgState) (tab : Nat) (o : RawOptions) (now : Nat)
    (audioOk : Bool) : BgState × List BgEvent × StartResult :=
  let stopped := if hasTab st tab then stopPipeline st tab else (st, [], none)
  let snew : BgSession :=
    { tabId := tab, sessionId := now, startTime := now, entries := [],
      options := normalizeOptions o }
  let st2 := setTab stopped.1 tab snew
  let tail : List BgEvent × StartResult :=
    if o.audioEnabled then
      if audioOk then
        ([BgEvent.startAudioMsg tab, BgEvent.pipelineStartedMsg tab] ++
           autoSaveToBackend st2 tab false,
         StartResult.ok)
      else ([], StartResult.err "offscreen_failed")
    else
      ([BgEvent.pipelineStartedMsg tab] ++ autoSaveToBackend st2 tab false,
       StartResult.ok)
  (st2, stopped.2.1 ++ [BgEvent.sessionCreated tab now] ++ tail.1, tail.2)

theorem startPipeline_state (st : BgState) (tab : Nat) (o : RawOptions)
    (now : Nat) (ok : Bool) :
    (startPipeline st tab o now ok).1 =
      setTab (if hasTab st tab then stopPipeline st tab else (st, [], none)).1 tab
        { tabId := tab, sessionId := now, startTime := now, entries := [],
          options := normalizeOptions o } := rfl

theorem startPipeline_trace_shape (st : BgState) (tab : Nat) (o : RawOptions)
    (now : Nat) (ok : Bool) :
    ∃ rest, (startPipeline st tab o now ok).2.1 =
      (if hasTab st tab then stopPipeline st tab else (st, [], none)).2.1 ++
        [BgEvent.sessionCreated tab now] ++ rest :=
  ⟨_, rfl⟩

theorem lookupTab_eraseTab (st : BgState) (tab : Nat) :
    lookupTab (eraseTab st tab) tab = none := by
  induction st with
  | nil => rfl
  | cons p rest ih =>
      by_cases h : p.1 = tab
      · simp [eraseTab, lookupTab, List.filter_cons, h, ih]
      · simp [eraseTab, lookupTab, List.filter_cons, List.find?, h, ih]

theorem lookupTab_append_of_none (l : BgState) (tab : Nat) (s : BgSession)
    (h : lookupTab l tab = none) :
    lookupTab (l ++ [(tab, s)]) tab = some s := by
  induction l with
  | nil => simp [lookupTab, List.find?]
  | cons p rest ih =>
      by_cases hp : p.1 = tab
      · simp [lookupTab, List.find?, hp] at h
      · simp only [lookupTab, List.find?, List.cons_append] at *
        rw [show (p.1 == tab) = false by simp [hp]] at *
        exact ih h

theorem lookupTab_setTab (st : BgState) (tab : Nat) (s : BgSession) :
    lookupTab (setTab st tab s) tab = some s :=
  lookupTab_append_of_none _ tab s (lookupTab_eraseTab st tab)

theorem countTab_eraseTab (st : BgState) (tab : Nat) :
    countTab (eraseTab st tab) tab = 0 := by
  induction st with
  | nil => rfl
  | cons p rest ih =>
      by_cases h : p.1 = tab
      · simp [countTab, eraseTab, List.filter_cons, h, ih]
      · simp [countTab, eraseTab, List.filter_cons, h, ih]

theorem countTab_setTab (st : BgState) (tab : Nat) (s : BgSession) :
    countTab (setTab st tab s) tab = 1 := by
  have h := countTab_eraseTab st tab
  simp only [countTab, setTab, List.filter_append] at *
  simp [h, List.length_append]

/-- C2 counterexample: starting on a fresh tab with audio enabled and stream
acquisition failing returns the structured error, yet a live `PipelineState`
for the tab remains registered — refuting "no live PipelineState for that tab
remains registered after the failed start". -/
theorem pipeline_start_failure_counterexample :
    (startPipeline [] 1 ⟨"", false, true, false⟩ 100 false).2.2 =
      StartResult.err "offscreen_failed" ∧
    lookupTab (startPipeline [] 1 ⟨"", false, true, false⟩ 100 false).1 1 ≠
      none := by decide

/-- C2 (amended): when audio capture is enabled and acquiring the media
stream fails, `startPipeline` aborts and returns a structured error, never
announces `PIPELINE_STARTED` (so the pipeline does not transition to Running)
and performs no initial autosave (no non-triggering save appears in the
trace) — but the freshly created `PipelineState` for the tab remains
registered in the tab map. -/
theorem pipeline_start_audio_failure (st : BgState) (tab : Nat)
    (o : RawOptions) (now : Nat) (haudio : o.audioEnabled = true) :
    (startPipeline st tab o now false).2.2 = StartResult.err "offscreen_failed" ∧
    BgEvent.pipelineStartedMsg tab ∉ (startPipeline st tab o now false).2.1 ∧
    (∀ sid n, BgEvent.saveSession sid n false ∉ (startPipeline st tab o now false).2.1) ∧
    lookupTab (startPipeline st tab o now false).1 tab =
      some { tabId := tab, sessionId := now, startTime := now, entries := [],
             options := normalizeOptions o } := by
  have hstop : ∀ e ∈ (stopPipeline st tab).2.1,
      e = BgEvent.stopAudioMsg tab ∨ e = BgEvent.pipelineStoppedMsg tab ∨
      ∃ sid n, e = BgEvent.saveSession sid n true := by
    intro e he
    unfold stopPipeline at he
    cases hl : lookupTab st tab with
    | none =>
        rw [hl] at he
        simp at he
        rcases he with h | h
        · exact Or.inl h
        · exact Or.inr (Or.inl h)
    | some s =>
        rw [hl] at he
        unfold autoSaveToBackend at he
        rw [hl] at he
        simp at he
        rcases he with h | h | h
        · exact Or.inl h
        · exact Or.inr (Or.inr ⟨s.sessionId, s.entries.length, h⟩)
        · exact Or.inr (Or.inl h)
  have htr : (startPipeline st tab o now false).2.1 =
      (if hasTab st tab then stopPipeline st tab else (st, [], none)).2.1 ++
        [BgEvent.sessionCreated tab now] := by
    unfold startPipeline
    simp [haudio]
  have hev : ∀ e ∈ (startPipeline st tab o now false).2.1,
      e = BgEvent.stopAudioMsg tab ∨ e = BgEvent.pipelineStoppedMsg tab ∨
      (∃ sid n, e = BgEvent.saveSession sid n true) ∨
      e = BgEvent.sessionCreated tab now := by
    intro e he
    rw [htr] at he
    simp only [List.mem_append, List.mem_singleton] at he
    by_cases hh : hasTab st tab
    · rw [if_pos hh] at he
      rcases he with h | h
      · rcases hstop e h with h1 | h1 | h1
        · exact Or.inl h1
        · exact Or.inr (Or.inl h1)
        · exact Or.inr (Or.inr (Or.inl h1))
      · exact Or.inr (Or.inr (Or.inr h))
    · rw [if_neg hh] at he
      simp at he
      exact Or.inr (Or.inr (Or.inr he))
  refine ⟨?_, ?_, ?_, ?_⟩
  · unfold startPipeline
    simp [haudio]
  · intro hmem
    rcases hev _ hmem with h | h | ⟨sid, n, h⟩ | h <;> simp at h
  · intro sid n hmem
    rcases hev _ hmem with h | h | ⟨sid2, n2, h⟩ | h <;> simp at h
  · rw [startPipeline_state]
    exact lookupTab_setTab _ tab _

/-- Witness for C2 (amended) on a concrete failed start. -/
theorem pipeline_start_audio_failure_witness :
    (startPipeline [] 1 ⟨"hi", true, true, true⟩ 42 false).2.2 =
      StartResult.err "offscreen_failed" ∧
    lookupTab (startPipeline [] 1 ⟨"hi", true, true, true⟩ 42 false).1 1 =
      some { tabId := 1, sessionId := 42, startTime := 42, entries := [],
             options := normalizeOptions ⟨"hi", true, true, true⟩ } :=
  ⟨(pipeline_start_audio_failure [] 1 ⟨"hi", true, true, true⟩ 42 rfl).1,
   (pipeline_start_audio_failure [] 1 ⟨"hi", true, true, true⟩ 42 rfl).2.2.2⟩

/-- C6: calling `startPipeline` twice for the same tab with no intervening
stop leaves exactly one live `PipelineState` for the tab — the second run's —
and the trace of the second call begins by fully stopping the first session:
`STOP_AUDIO`, the final forced save of the first session with the
trigger-pipeline flag set, `PIPELINE_STOPPED`, and only then the creation of
the second session. -/
theorem double_start_single_pipeline (st : BgState) (tab : Nat)
    (o1 o2 : RawOptions) (now1 now2 : Nat) (ok1 ok2 : Bool) :
    countTab (startPipeline (startPipeline st tab o1 now1 ok1).1 tab o2 now2 ok2).1 tab = 1 ∧
    lookupTab (startPipeline (startPipeline st tab o1 now1 ok1).1 tab o2 now2 ok2).1 tab =
      some { tabId := tab, sessionId := now2, startTime := now2, entries := [],
             options := normalizeOptions o2 } ∧
    ∃ rest, (startPipeline (startPipeline st tab o1 now1 ok1).1 tab o2 now2 ok2).2.1 =
      [BgEvent.stopAudioMsg tab, BgEvent.saveSession now1 0 true,
       BgEvent.pipelineStoppedMsg tab, BgEvent.sessionCreated tab now2] ++ rest := by
  have h1 : lookupTab (startPipeline st tab o1 now1 ok1).1 tab =
      some { tabId := tab, sessionId := now1, startTime := now1, entries := [],
             options := normalizeOptions o1 } := by
    rw [startPipeline_state]
    exact lookupTab_setTab _ tab _
  refine ⟨?_, ?_, ?_⟩
  · rw [startPipeline_state]
    exact countTab_setTab _ tab _
  · rw [startPipeline_state]
    exact lookupTab_setTab _ tab _
  · obtain ⟨rest, hrest⟩ :=
      startPipeline_trace_shape (startPipeline st tab o1 now1 ok1).1 tab o2 now2 ok2
    refine ⟨rest, ?_⟩
    rw [hrest,
      if_pos (show hasTab (startPipeline st tab o1 now1 ok1).1 tab = true by
        simp [hasTab, h1])]
    simp [stopPipeline, autoSaveToBackend, h1]

/-- Witness for C6 on concrete data: empty registry, two starts on tab 1. -/
theorem double_start_single_pipeline_witness :
    countTab (startPipeline (startPipeline [] 1 ⟨"", false, false, true⟩ 5 true).1
      1 ⟨"hi", true, false, true⟩ 9 true).1 1 = 1 ∧
    lookupTab (startPipeline (startPipeline [] 1 ⟨"", false, false, true⟩ 5 true).1
      1 ⟨"hi", true, false, true⟩ 9 true).1 1 =
      some { tabId := 1, sessionId := 9, startTime := 9, entries := [],
             options := normalizeOptions ⟨"hi", true, false, true⟩ } :=
  ⟨(double_start_single_pipeline [] 1 ⟨"", false, false, true⟩
      ⟨"hi", true, false, true⟩ 5 9 true true).1,
   (double_start_single_pipeline [] 1 ⟨"", false, false, true⟩
      ⟨"hi", true, false, true⟩ 5 9 true true).2.1⟩

/-! ### Speech-to-text sink (`sendToBackend`, part_002) -/

/-- Parsed body of a `/api/speech-to-text` response; absent string fields are
`""` (undefined and the empty string are interchangeable in every truthiness
test performed on them). -/
structure STTData where
  original_text : String
  translated_text : String
  detected_language : String
  confidence : ℚ
  timestamp : String
deriving DecidableEq, Repr

/-- Subtitle entry built by `sendToBackend` from a transcription: id
`sub_${Date.now()}_${rand}`, source `audio`, preferring translated text. -/
def mkSttEntry (d : STTData) (now rand : Nat) : BgEntry :=
  { id := (now, rand),
    timestamp_created := now,
    source := "audio",
    language := if d.detected_language = "" then "unknown" else d.detected_language,
    text := if d.translated_text = "" then d.original_text else d.translated_text,
    original_text := d.original_text,
    confidence := d.confidence,
    timestamp_start := d.timestamp }

/-- Model of `sendToBackend(base64Audio, tabId)` at the moment the
speech-to-text response is handled.  `tab = none` models a chunk without a
routable tab id; `resp = none` models a failed request (network error or a
non-OK status, both caught by the surrounding try).  A chunk is appended —
followed by an incremental autosave and the `AUDIO_SUBTITLE` notification —
only when the tab has a live session and the response carries some text. -/
def sendToBackend (st : BgState) (tab : Option Nat) (resp : Option STTData)
    (now rand : Nat) : BgState × List BgEvent :=
  match tab with
  | none => (st, [])
  | some tabId =>
    match lookupTab st tabId with
    | none => (st, [])
    | some session =>
      match resp with
      | none => (st, [])
      | some d =>
        if d.original_text = "" ∧ d.translated_text = "" then (st, [])
        else
          (setTab st tabId
            { session with entries := session.entries ++ [mkSttEntry d now rand] },
           autoSaveToBackend
             (setTab st tabId
               { session with entries := session.entries ++ [mkSttEntry d now rand] })
             tabId false ++ [BgEvent.audioSubtitleMsg tabId])

/-- C10: a completed audio chunk is dropped — registry unchanged, no save
posted, nothing notified — whenever the tab has no live `PipelineState`, or
the speech-to-text request failed, or the response carries neither a
non-empty `original_text` nor a non-empty `translated_text`; and a subtitle
entry (with its incremental autosave) is appended exactly when a live session
exists and some transcribed text is present. -/
theorem stt_sink_guard (st : BgState) (tab : Nat) (resp : Option STTData)
    (now rand : Nat) :
    (lookupTab st tab = none → sendToBackend st (some tab) resp now rand = (st, [])) ∧
    (resp = none → sendToBackend st (some tab) resp now rand = (st, [])) ∧
    (∀ d, resp = some d → d.original_text = "" → d.translated_text = "" →
      sendToBackend st (some tab) resp now rand = (st, [])) ∧
    (∀ d s, resp = some d → lookupTab st tab = some s →
      ¬ (d.original_text = "" ∧ d.translated_text = "") →
      sendToBackend st (some tab) resp now rand =
        (setTab st tab { s with entries := s.entries ++ [mkSttEntry d now rand] },
         [BgEvent.saveSession s.sessionId (s.entries.length + 1) false,
          BgEvent.audioSubtitleMsg tab])) := by
  refine ⟨?_, ?_, ?_, ?_⟩
  · intro h
    simp [sendToBackend, h]
  · intro h
    cases hl : lookupTab st tab with
    | none => simp [sendToBackend, hl]
    | some s => simp [sendToBackend, hl, h]
  · intro d hresp ho ht
    cases hl : lookupTab st tab with
    | none => simp [sendToBackend, hl]
    | some s => simp [sendToBackend, hl, hresp, ho, ht]
  · intro d s hresp hl hne
    simp only [sendToBackend, hl, hresp]
    rw [if_neg hne]
    simp [autoSaveToBackend, lookupTab_setTab]

/-- Witness for C10: on tab 1 with a live empty session, a failed request and
an all-empty response are dropped, and a response with text appends exactly
one subtitle entry followed by its autosave. -/
theorem stt_sink_guard_witness :
    sendToBackend [(1, ⟨1, 7, 7, [], ⟨"en", false, true, true⟩⟩)] (some 1) none 8 3 =
      ([(1, ⟨1, 7, 7, [], ⟨"en", false, true, true⟩⟩)], []) ∧
    sendToBackend [(1, ⟨1, 7, 7, [], ⟨"en", false, true, true⟩⟩)] (some 1)
        (some ⟨"", "", "en", 1, "00:00:01"⟩) 8 3 =
      ([(1, ⟨1, 7, 7, [], ⟨"en", false, true, true⟩⟩)], []) ∧
    sendToBackend [(1, ⟨1, 7, 7, [], ⟨"en", false, true, true⟩⟩)] (some 1)
        (some ⟨"hola", "hello", "es", 1, "00:00:01"⟩) 8 3 =
      ([(1, ⟨1, 7, 7, [mkSttEntry ⟨"hola", "hello", "es", 1, "00:00:01"⟩ 8 3],
            ⟨"en", false, true, true⟩⟩)],
       [BgEvent.saveSession 7 1 false, BgEvent.audioSubtitleMsg 1]) := by
  refine ⟨?_, ?_, ?_⟩
  · exact (stt_sink_guard [(1, ⟨1, 7, 7, [], ⟨"en", false, true, true⟩⟩)] 1
      none 8 3).2.1 rfl
  · exact (stt_sink_guard [(1, ⟨1, 7, 7, [], ⟨"en", false, true, true⟩⟩)] 1
      (some ⟨"", "", "en", 1, "00:00:01"⟩) 8 3).2.2.1 _ rfl rfl rfl
  · have h := (stt_sink_guard [(1, ⟨1, 7, 7, [], ⟨"en", false, true, true⟩⟩)] 1
      (some ⟨"hola", "hello", "es", 1, "00:00:01"⟩) 8 3).2.2.2
      ⟨"hola", "hello", "es", 1, "00:00:01"⟩ ⟨1, 7, 7, [], ⟨"en", false, true, true⟩⟩
      rfl (by decide) (by decide)
    rw [h]
    decide

/-! ### Offscreen audio recorder (part_003)

The offscreen document rotates a `MediaRecorder` on a timer and forwards each
completed chunk as an `AUDIO_CHUNK` runtime message.  Its module state
(`recorder`, `timer`, `chunks`, `isStopping`) is modelled as `OffState`;
chunk data blobs are opaque `Nat`s (their sizes).  The context is
single-threaded, so a run is a sequence of handler activations: the
`START_AUDIO` / `STOP_AUDIO` message handlers, `ondataavailable`, the rotation
timer tick, and the asynchronous `onstop` callback — which, for a recorder
stopped by `STOP_AUDIO`, necessarily runs *after* that handler has already
set `isStopping`. -/

structure OffState where
  isStopping : Bool
  chunks : List Nat
  recorderActive : Bool
  timerOn : Bool
  streamOpen : Bool
deriving DecidableEq, Repr

/-- Handler activations of the offscreen context, in execution order. -/
inductive OffEvent where
  | startAudio (ok : Bool)
  | dataAvailable (size : Nat)
  | rotateTick
  | recorderStopped
  | stopAudio
deriving DecidableEq, Repr

/-- True exactly for `START_AUDIO` activations (the only ones that clear the
`isStopping` flag). -/
def isStartAudio : OffEvent → Bool
  | OffEvent.startAudio _ => true
  | _ => false

/-- One handler activation.  Returns the new module state and the
`AUDIO_CHUNK` payloads emitted (each payload the buffered blob list).
`startAudio`: `isStopping = false` is reset before `getUserMedia`, so it is
cleared even when acquisition fails.  `dataAvailable`: `e.data.size &&
chunks.push(e.data)`.  `rotateTick`: stop-then-restart keeps the recorder
recording; the induced `onstop` arrives as a later `recorderStopped` event.
`recorderStopped`: when `isStopping` is set the final chunk is discarded,
otherwise the blob is flushed and sent.  `stopAudio`: sets `isStopping`
first, then clears the timer, stops the recorder, releases the stream tracks
and empties the chunk buffer. -/
def offStep (s : OffState) (e : OffEvent) : OffState × List (List Nat) :=
  match e with
  | OffEvent.startAudio ok =>
      if ok then
        ({ isStopping := false, chunks := s.chunks, recorderActive := true,
           timerOn := true, streamOpen := true }, [])
      else ({ s with isStopping := false }, [])
  | OffEvent.dataAvailable size =>
      if size ≠ 0 then ({ s with chunks := s.chunks ++ [size] }, []) else (s, [])
  | OffEvent.rotateTick => (s, [])
  | OffEvent.recorderStopped =>
      if s.isStopping then ({ s with chunks := [] }, [])
      else ({ s with chunks := [] }, [s.chunks])
  | OffEvent.stopAudio =>
      ({ isStopping := true, chunks := [], recorderActive := false,
         timerOn := false, streamOpen := false }, [])

/-- Run of the offscreen context over a sequence of handler activations,
collecting every emitted `AUDIO_CHUNK` payload. -/
def offRun (s : OffState) : List OffEvent → OffState × List (List Nat)
  | [] => (s, [])
  | e :: rest =>
      ((offRun (offStep s e).1 rest).1,
       (offStep s e).2 ++ (offRun (offStep s e).1 rest).2)

theorem offRun_stopping_silent (evs : List OffEvent) :
    ∀ s : OffState, s.isStopping = true →
      (∀ e ∈ evs, isStartAudio e = false) →
      (offRun s evs).2 = [] ∧ (offRun s evs).1.isStopping = true := by
  induction evs with
  | nil => intro s hs _; exact ⟨rfl, hs⟩
  | cons e rest ih =>
      intro s hs hno
      have hne : isStartAudio e = false := hno e (by simp)
      have hstep : (offStep s e).2 = [] ∧ (offStep s e).1.isStopping = true := by
        cases e with
        | startAudio ok => simp [isStartAudio] at hne
        | dataAvailable size =>
            by_cases hsz : size ≠ 0 <;> simp [offStep, hsz, hs]
        | rotateTick => exact ⟨rfl, hs⟩
        | recorderStopped => simp [offStep, hs]
        | stopAudio => simp [offStep]
      have hrest := ih (offStep s e).1 hstep.2 (fun x hx => hno x (by simp [hx]))
      refine ⟨?_, ?_⟩
      · show (offStep s e).2 ++ (offRun (offStep s e).1 rest).2 = []
        rw [hstep.1, hrest.1]
        rfl
      · show (offRun (offStep s e).1 rest).1.isStopping = true
        exact hrest.2

/-- C4: once `STOP_AUDIO` has been handled, no audio chunk whose generation
was in flight is ever forwarded: whatever handler activations follow (chunk
data arriving, the final `onstop` of the stopped recorder, stray timer
ticks — anything except a fresh `START_AUDIO`), the offscreen context emits
no `AUDIO_CHUNK` payload at all.  Moreover the controller side is also
guarded: after `stopPipeline` the tab's `PipelineState` is deleted, and
`sendToBackend` drops any chunk for a tab without a live `PipelineState`,
leaving the closed session untouched. -/
theorem stop_suppresses_inflight_chunk (s : OffState) (evs : List OffEvent)
    (bg : BgState) (tab : Nat) (resp : Option STTData) (now rand : Nat)
    (hno : ∀ e ∈ evs, isStartAudio e = false) :
    (offRun (offStep s OffEvent.stopAudio).1 evs).2 = [] ∧
    lookupTab (stopPipeline bg tab).1 tab = none ∧
    (lookupTab bg tab = none →
      sendToBackend bg (some tab) resp now rand = (bg, [])) := by
  refine ⟨?_, ?_, ?_⟩
  · exact (offRun_stopping_silent evs (offStep s OffEvent.stopAudio).1 rfl hno).1
  · unfold stopPipeline
    cases hl : lookupTab bg tab with
    | none => exact hl
    | some sess => exact lookupTab_eraseTab bg tab
  · intro h
    simp [sendToBackend, h]

/-- Witness for C4: a recorder mid-chunk (buffer `[3]`, more data and the
final `onstop` still to come) handles `STOP_AUDIO`; the subsequent events
emit nothing, and a late chunk for the torn-down tab 1 is dropped. -/
theorem stop_suppresses_inflight_chunk_witness :
    (offRun (offStep ⟨false, [3], true, true, true⟩ OffEvent.stopAudio).1
      [OffEvent.dataAvailable 2, OffEvent.recorderStopped, OffEvent.rotateTick]).2 = [] ∧
    lookupTab (stopPipeline [(1, ⟨1, 7, 7, [], ⟨"en", false, true, true⟩⟩)] 1).1 1 = none ∧
    sendToBackend [] (some 1) (some ⟨"hola", "hello", "es", 1, "00:00:01"⟩) 8 3 =
      ([], []) := by
  have h := stop_suppresses_inflight_chunk ⟨false, [3], true, true, true⟩
    [OffEvent.dataAvailable 2, OffEvent.recorderStopped, OffEvent.rotateTick]
    [(1, ⟨1, 7, 7, [], ⟨"en", false, true, true⟩⟩)] 1
    (some ⟨"hola", "hello", "es", 1, "00:00:01"⟩) 8 3 (by decide)
  have h2 := stop_suppresses_inflight_chunk ⟨false, [3], true, true, true⟩ []
    [] 1 (some ⟨"hola", "hello", "es", 1, "00:00:01"⟩) 8 3 (by decide)
  exact ⟨h.1, h.2.1, h2.2.2 rfl⟩

/-! ### SessionManager (part_004)

`SessionManager.addEntry(type, data)` builds entry ids as formatted strings:
`img_txt_${baseId}_${index}` for multi-region OCR expansions and
`${px}_${baseId}_${rand}` with `px ∈ {sub, sel, img_txt}` otherwise, where
`baseId = Date.now()` and `rand = Math.floor(Math.random() * 1000)`.  Since
the numeric parts are decimal digit runs separated by `_`, two such strings
are equal exactly when tag, base and suffix agree; the id is therefore
modelled as that triple.  `Date.now()` and the random draw are explicit
inputs of each call. -/

/-- Prefix of a generated entry id (`sub_` / `sel_` / `img_txt_`). -/
inductive IdTag where
  | sub
  | sel
  | imgTxt
deriving DecidableEq, Repr

/-- Entry id `tag_base_suffix`. -/
structure EntryId where
  tag : IdTag
  base : Nat
  suffix : Nat
deriving DecidableEq, Repr

/-- Image reference: the payload's `image_id` string when present (truthy),
else the generated `img_${baseId}`. -/
inductive ImageRef where
  | given (s : String)
  | generated (base : Nat)
deriving DecidableEq, Repr

/-- Selection metadata captured with a `selected_text` entry. -/
structure SelMeta where
  page_url : String
  page_title : String
  x : Int
  y : Int
  w : Int
  h : Int
deriving DecidableEq, Repr

/-- One element of `data.text_regions`. -/
structure Region where
  text : String
  confidence : ℚ
  bbox : List Int
deriving DecidableEq, Repr

/-- Payload of an `addEntry` call; absent string fields are `""` (both are
falsy in every `||` default applied to them) and an absent `text_regions` is
`[]` (both fail the `length > 0` guard). -/
structure EntryData where
  text_regions : List Region
  image_id : String
  detected_language : String
  translated_text : String
  original_text : String
  confidence : ℚ
  source : String
  timestamp : String
  image_path : String
  bbox : List Int
  selection_metadata : Option SelMeta
deriving DecidableEq, Repr

/-- Entry stored in `SessionManager.entries`. -/
structure SMEntry where
  id : EntryId
  timestamp_created : Nat
  source : String
  image_id : Option ImageRef
  language : String
  text : String
  original_text : Option String
  confidence : ℚ
  bbox : Option (List Int)
  timestamp_start : Option String
  image_path : Option String
  selection_metadata : Option SelMeta
deriving DecidableEq, Repr

/-- Entry built for one OCR text region (`data.text_regions.forEach`): id
`img_txt_${baseId}_${index}`, source `image`, the shared image id, the
region's text, confidence and bbox. -/
def mkRegionEntry (d : EntryData) (img : ImageRef) (now idx : Nat)
    (r : Region) : SMEntry :=
  { id := ⟨IdTag.imgTxt, now, idx⟩,
    timestamp_created := now,
    source := "image",
    image_id := some img,
    language := if d.detected_language = "" then "unknown" else d.detected_language,
    text := r.text,
    original_text := none,
    confidence := r.confidence,
    bbox := some r.bbox,
    timestamp_start := none,
    image_path := none,
    selection_metadata := none }

/-- Expansion of the regions list with running index `i` (the `forEach`
callback's `index` argument). -/
def regionEntries (d : EntryData) (img : ImageRef) (now : Nat) :
    Nat → List Region → List SMEntry
  | _, [] => []
  | i, r :: rs => mkRegionEntry d img now i r :: regionEntries d img now (i + 1) rs

/-- Id prefix chosen in the fallback branch:
`type === 'subtitle' ? 'sub' : type === 'selected_text' ? 'sel' : 'img_txt'`. -/
def fallbackTag (ty : String) : IdTag :=
  if ty = "subtitle" then IdTag.sub
  else if ty = "selected_text" then IdTag.sel
  else IdTag.imgTxt

/-- The image id used for OCR entries: `data.image_id || img_${baseId}`. -/
def ocrImageRef (d : EntryData) (now : Nat) : ImageRef :=
  if d.image_id = "" then ImageRef.generated now else ImageRef.given d.image_id

/-- Entry built by the fallback / standard branch of `addEntry`. -/
def mkFallbackEntry (ty : String) (d : EntryData) (now rand : Nat) : SMEntry :=
  { id := ⟨fallbackTag ty, now, rand⟩,
    timestamp_created := now,
    source := if ty = "subtitle" then (if d.source = "" then "audio" else d.source)
      else if ty = "selected_text" then "user_selection" else "image",
    image_id := if ty = "screen_ocr" then some (ocrImageRef d now) else none,
    language := if d.detected_language = "" then "unknown" else d.detected_language,
    text := if d.translated_text = "" then d.original_text else d.translated_text,
    original_text := some d.original_text,
    confidence := d.confidence,
    bbox := if ty = "screen_ocr" then some d.bbox else none,
    timestamp_start := if ty = "subtitle" then some d.timestamp else none,
    image_path := if ty = "screen_ocr" ∧ ¬ d.image_path = "" then some d.image_path
      else none,
    selection_metadata := if ty = "selected_text" then d.selection_metadata
      else none }

/-- Model of `SessionManager.addEntry(type, data)` acting on the entry list
(the subsequent `autoSave` call never touches `entries`; it is modelled
separately).  A `screen_ocr` payload with a non-empty `text_regions` expands
into one entry per region, all sharing `ocrImageRef d now`; every other call
appends the single fallback entry. -/
def addEntry (ty : String) (d : EntryData) (now rand : Nat)
    (entries : List SMEntry) : List SMEntry :=
  if ty = "screen_ocr" ∧ d.text_regions ≠ [] then
    entries ++ regionEntries d (ocrImageRef d now) now 0 d.text_regions
  else
    entries ++ [mkFallbackEntry ty d now rand]

/-- One `addEntry` call with its environment-chosen `Date.now()` and random
draw. -/
structure AddCall where
  ty : String
  data : EntryData
  now : Nat
  rand : Nat
deriving DecidableEq, Repr

/-- The entries one call appends (independent of the pre-existing list). -/
def producedEntries (c : AddCall) : List SMEntry :=
  addEntry c.ty c.data c.now c.rand []

/-- A whole sequence of `addEntry` calls on one session. -/
def addEntryRun (calls : List AddCall) (entries : List SMEntry) : List SMEntry :=
  calls.foldl (fun es c => addEntry c.ty c.data c.now c.rand es) entries

theorem addEntry_append (c : AddCall) (es : List SMEntry) :
    addEntry c.ty c.data c.now c.rand es = es ++ producedEntries c := by
  unfold addEntry producedEntries addEntry
  split <;> simp

theorem regionEntries_length (d : EntryData) (img : ImageRef) (now : Nat) :
    ∀ (i : Nat) (rs : List Region),
      (regionEntries d img now i rs).length = rs.length := by
  intro i rs
  induction rs generalizing i with
  | nil => rfl
  | cons r rs ih => simp [regionEntries, ih]

theorem mem_regionEntries (d : EntryData) (img : ImageRef) (now : Nat) :
    ∀ (i : Nat) (rs : List Region) (e : SMEntry),
      e ∈ regionEntries d img now i rs →
      e.image_id = some img ∧ e.id.tag = IdTag.imgTxt ∧ e.id.base = now ∧
        i ≤ e.id.suffix := by
  intro i rs
  induction rs generalizing i with
  | nil => intro e he; simp [regionEntries] at he
  | cons r rs ih =>
      intro e he
      simp only [regionEntries, List.mem_cons] at he
      rcases he with rfl | he
      · exact ⟨rfl, rfl, rfl, le_refl i⟩
      · obtain ⟨h1, h2, h3, h4⟩ := ih (i + 1) e he
        exact ⟨h1, h2, h3, by omega⟩

theorem regionEntries_ids_nodup (d : EntryData) (img : ImageRef) (now : Nat) :
    ∀ (i : Nat) (rs : List Region),
      ((regionEntries d img now i rs).map (fun e => e.id)).Nodup := by
  intro i rs
  induction rs generalizing i with
  | nil => simp [regionEntries]
  | cons r rs ih =>
      simp only [regionEntries, List.map_cons, List.nodup_cons]
      refine ⟨?_, ih (i + 1)⟩
      intro hmem
      simp only [List.mem_map] at hmem
      obtain ⟨e, he, hid⟩ := hmem
      have h := (mem_regionEntries d img now (i + 1) rs e he).2.2.2
      rw [hid] at h
      have h2 : i + 1 ≤ i := h
      omega

theorem mem_producedEntries_base (c : AddCall) (e : SMEntry)
    (h : e ∈ producedEntries c) : e.id.base = c.now := by
  unfold producedEntries addEntry at h
  split at h
  · simp only [List.nil_append] at h
    exact (mem_regionEntries c.data (ocrImageRef c.data c.now) c.now 0
      c.data.text_regions e h).2.2.1
  · simp at h
    rw [h]
    rfl

theorem producedEntries_ids_nodup (c : AddCall) :
    ((producedEntries c).map (fun e => e.id)).Nodup := by
  unfold producedEntries addEntry
  split
  · simp only [List.nil_append]
    exact regionEntries_ids_nodup c.data (ocrImageRef c.data c.now) c.now 0
      c.data.text_regions
  · simp

theorem addEntryRun_eq (calls : List AddCall) :
    ∀ es : List SMEntry,
      addEntryRun calls es = es ++ (calls.map producedEntries).flatten := by
  induction calls with
  | nil => intro es; simp [addEntryRun]
  | cons c cs ih =>
      intro es
      show addEntryRun cs (addEntry c.ty c.data c.now c.rand es) = _
      rw [addEntry_append, ih, List.map_cons, List.flatten_cons, List.append_assoc]

/-- C3 (amended): for every finite sequence of `addEntry` calls on one
session, the resulting entry list is exactly the concatenation, in call
order, of the entries each call produced; and all entry ids are pairwise
distinct provided no two calls drew the same `Date.now()` millisecond (the
counterexample shows ids can collide when two calls share a timestamp). -/
theorem addEntry_order_and_unique_ids (calls : List AddCall)
    (es : List SMEntry) :
    addEntryRun calls es = es ++ (calls.map producedEntries).flatten ∧
    ((calls.map fun c => c.now).Nodup →
      ((addEntryRun calls []).map fun e => e.id).Nodup) := by
  refine ⟨addEntryRun_eq calls es, ?_⟩
  intro hnow
  rw [addEntryRun_eq calls [], List.nil_append]
  have aux : ∀ cs : List AddCall, (cs.map fun c => c.now).Nodup →
      (((cs.map producedEntries).flatten).map fun e => e.id).Nodup := by
    intro cs
    induction cs with
    | nil => intro _; simp
    | cons c rest ih =>
        intro hn
        simp only [List.map_cons, List.nodup_cons] at hn
        simp only [List.map_cons, List.flatten_cons, List.map_append]
        rw [List.nodup_append]
        refine ⟨producedEntries_ids_nodup c, ih hn.2, ?_⟩
        intro a ha ha2
        simp only [List.mem_map] at ha
        obtain ⟨e, he, rfl⟩ := ha
        simp only [List.mem_map] at ha2
        obtain ⟨e2, he2, hid⟩ := ha2
        simp only [List.mem_flatten, List.mem_map] at he2
        obtain ⟨l, ⟨c2, hc2, rfl⟩, hel⟩ := he2
        have hb1 := mem_producedEntries_base c e he
        have hb2 := mem_producedEntries_base c2 e2 hel
        have hneq : c.now ≠ c2.now := by
          intro hcon
          exact hn.1 (by
            simp only [List.mem_map]
            exact ⟨c2, hc2, hcon.symm⟩)
        rw [hid] at hb2
        rw [hb1] at hb2
        exact hneq hb2
  exact aux calls hnow

/-- C3 counterexample: two multi-region `screen_ocr` calls made in the same
millisecond (`Date.now() = 5`) produce colliding ids (`img_txt_5_0` twice),
so the session's ids are not pairwise distinct for every call sequence. -/
theorem addEntry_duplicate_ids_counterexample :
    ¬ ((addEntryRun
        [⟨"screen_ocr", ⟨[⟨"hi", 1, []⟩], "", "en", "", "", 1, "", "", "", [], none⟩, 5, 0⟩,
         ⟨"screen_ocr", ⟨[⟨"hi", 1, []⟩], "", "en", "", "", 1, "", "", "", [], none⟩, 5, 1⟩]
        []).map fun e => e.id).Nodup := by decide

/-- Witness for C3 (amended): two calls at distinct milliseconds yield the
two calls' entries in order with distinct ids. -/
theorem addEntry_order_and_unique_ids_witness :
    addEntryRun
        [⟨"screen_ocr", ⟨[⟨"hi", 1, []⟩], "", "en", "", "", 1, "", "", "", [], none⟩, 5, 0⟩,
         ⟨"subtitle", ⟨[], "", "en", "hello", "hola", 1, "", "00:00:01", "", [], none⟩, 6, 1⟩]
        [] =
      [] ++ (([⟨"screen_ocr", ⟨[⟨"hi", 1, []⟩], "", "en", "", "", 1, "", "", "", [], none⟩, 5, 0⟩,
         ⟨"subtitle", ⟨[], "", "en", "hello", "hola", 1, "", "00:00:01", "", [], none⟩, 6, 1⟩] :
           List AddCall).map producedEntries).flatten ∧
    ((addEntryRun
        [⟨"screen_ocr", ⟨[⟨"hi", 1, []⟩], "", "en", "", "", 1, "", "", "", [], none⟩, 5, 0⟩,
         ⟨"subtitle", ⟨[], "", "en", "hello", "hola", 1, "", "00:00:01", "", [], none⟩, 6, 1⟩]
        []).map fun e => e.id).Nodup :=
  ⟨(addEntry_order_and_unique_ids
      [⟨"screen_ocr", ⟨[⟨"hi", 1, []⟩], "", "en", "", "", 1, "", "", "", [], none⟩, 5, 0⟩,
       ⟨"subtitle", ⟨[], "", "en", "hello", "hola", 1, "", "00:00:01", "", [], none⟩, 6, 1⟩]
      []).1,
   (addEntry_order_and_unique_ids
      [⟨"screen_ocr", ⟨[⟨"hi", 1, []⟩], "", "en", "", "", 1, "", "", "", [], none⟩, 5, 0⟩,
       ⟨"subtitle", ⟨[], "", "en", "hello", "hola", 1, "", "00:00:01", "", [], none⟩, 6, 1⟩]
      []).2 (by decide)⟩

/-- C8: a `screen_ocr` payload with `R ≥ 1` text regions appends exactly `R`
entries — the region expansions, in region order — and every one of them
carries the same image id `ocrImageRef d now` (the payload's `image_id` when
present, else the generated `img_${baseId}`). -/
theorem multi_region_expansion (d : EntryData) (es : List SMEntry)
    (now rand : Nat) (hr : d.text_regions ≠ []) :
    addEntry "screen_ocr" d now rand es =
      es ++ regionEntries d (ocrImageRef d now) now 0 d.text_regions ∧
    (regionEntries d (ocrImageRef d now) now 0 d.text_regions).length =
      d.text_regions.length ∧
    ∀ e ∈ regionEntries d (ocrImageRef d now) now 0 d.text_regions,
      e.image_id = some (ocrImageRef d now) := by
  refine ⟨?_, regionEntries_length d (ocrImageRef d now) now 0 d.text_regions, ?_⟩
  · unfold addEntry
    rw [if_pos ⟨rfl, hr⟩]
  · intro e he
    exact (mem_regionEntries d (ocrImageRef d now) now 0 d.text_regions e he).1

/-- Witness for C8: a two-region payload appends exactly two entries sharing
the given image id. -/
theorem multi_region_expansion_witness :
    addEntry "screen_ocr"
        ⟨[⟨"a", 1, [0, 1]⟩, ⟨"b", (1 : ℚ)/2, [2, 3]⟩], "imgX", "en", "", "", 1,
          "", "", "", [], none⟩ 9 4 [] =
      [] ++ regionEntries
        ⟨[⟨"a", 1, [0, 1]⟩, ⟨"b", (1 : ℚ)/2, [2, 3]⟩], "imgX", "en", "", "", 1,
          "", "", "", [], none⟩ (ocrImageRef
            ⟨[⟨"a", 1, [0, 1]⟩, ⟨"b", (1 : ℚ)/2, [2, 3]⟩], "imgX", "en", "", "", 1,
              "", "", "", [], none⟩ 9) 9 0
        [⟨"a", 1, [0, 1]⟩, ⟨"b", (1 : ℚ)/2, [2, 3]⟩] ∧
    (regionEntries
        ⟨[⟨"a", 1, [0, 1]⟩, ⟨"b", (1 : ℚ)/2, [2, 3]⟩], "imgX", "en", "", "", 1,
          "", "", "", [], none⟩ (ocrImageRef
            ⟨[⟨"a", 1, [0, 1]⟩, ⟨"b", (1 : ℚ)/2, [2, 3]⟩], "imgX", "en", "", "", 1,
              "", "", "", [], none⟩ 9) 9 0
        [⟨"a", 1, [0, 1]⟩, ⟨"b", (1 : ℚ)/2, [2, 3]⟩]).length =
      ([⟨"a", 1, [0, 1]⟩, ⟨"b", (1 : ℚ)/2, [2, 3]⟩] : List Region).length :=
  ⟨(multi_region_expansion
      ⟨[⟨"a", 1, [0, 1]⟩, ⟨"b", (1 : ℚ)/2, [2, 3]⟩], "imgX", "en", "", "", 1,
        "", "", "", [], none⟩ [] 9 4 (by decide)).1,
   (multi_region_expansion
      ⟨[⟨"a", 1, [0, 1]⟩, ⟨"b", (1 : ℚ)/2, [2, 3]⟩], "imgX", "en", "", "", 1,
        "", "", "", [], none⟩ [] 9 4 (by decide)).2.1⟩

/-! ### SessionManager autosave, polling debounce and finalize (part_004)

`autoSave(trigger)` writes the session to `chrome.storage.local` and posts it
to `/api/save-session`; when the post succeeds *and* the trigger flag is set
it already starts `pollResults`.  `finalizeSession()` forces `autoSave(true)`
and then starts `pollResults` again when the session has entries (a no-op if
the autosave already started it, thanks to the `isPolling` debounce).
Whether the backend post succeeds is the explicit `saveOk` input. -/

/-- Mutable fields of the `SessionManager` relevant to saving and polling. -/
structure SMState where
  sessionId : Nat
  entries : List SMEntry
  autoSaveEnabled : Bool
  isPolling : Bool
  currentPollingSession : Option Nat
deriving DecidableEq, Repr

/-- Outward effects of the session manager. -/
inductive SMEffect where
  | storageWrite (sessionId : Nat) (numEntries : Nat)
  | backendSave (sessionId : Nat) (numEntries : Nat) (trigger : Bool)
  | pollStarted (sessionId : Nat)
deriving DecidableEq, Repr

/-- Model of `pollResults(sessionId)` at the moment it is invoked: the
debounce returns immediately when a poll for the same session id is already
running, otherwise it marks the state as polling and starts the loop. -/
def pollResultsStart (st : SMState) (sid : Nat) : SMState × List SMEffect :=
  if st.isPolling = true ∧ st.currentPollingSession = some sid then (st, [])
  else
    ({ st with isPolling := true, currentPollingSession := some sid },
     [SMEffect.pollStarted sid])

/-- Model of `autoSave(triggerPipeline)`: a no-op when disabled; otherwise
writes the local snapshot, posts the session (the registry is unchanged
whether or not the post succeeds), and — only when the post succeeded and the
trigger flag is set — starts `pollResults` for the current session id. -/
def autoSave (st : SMState) (trigger : Bool) (saveOk : Bool) :
    SMState × List SMEffect :=
  if st.autoSaveEnabled = false then (st, [])
  else
    if saveOk = true ∧ trigger = true then
      ((pollResultsStart st st.sessionId).1,
       [SMEffect.storageWrite st.sessionId st.entries.length,
        SMEffect.backendSave st.sessionId st.entries.length trigger] ++
         (pollResultsStart st st.sessionId).2)
    else
      (st,
       [SMEffect.storageWrite st.sessionId st.entries.length,
        SMEffect.backendSave st.sessionId st.entries.length trigger])

/-- Model of `finalizeSession()`: force `autoSave(true)`, then start
`pollResults` when the session has at least one entry. -/
def finalizeSession (st : SMState) (saveOk : Bool) : SMState × List SMEffect :=
  if 0 < (autoSave st true saveOk).1.entries.length then
    ((pollResultsStart (autoSave st true saveOk).1
        (autoSave st true saveOk).1.sessionId).1,
     (autoSave st true saveOk).2 ++
       (pollResultsStart (autoSave st true saveOk).1
         (autoSave st true saveOk).1.sessionId).2)
  else autoSave st true saveOk

/-- C7 counterexample: a finalized session with zero entries *does* begin
result retrieval when the triggered backend save succeeds, because
`autoSave(true)` itself starts `pollResults` on success — refuting "begins
result retrieval if, and only if, the session has at least one entry". -/
theorem finalize_zero_entries_polls_counterexample :
    (finalizeSession ⟨100, [], true, false, none⟩ true).2 =
      [SMEffect.storageWrite 100 0, SMEffect.backendSave 100 0 true,
       SMEffect.pollStarted 100] ∧
    (finalizeSession ⟨100, [], true, false, none⟩ true).1.isPolling = true := by
  decide

/-- C7 (amended): with autosave enabled and no poll already running,
`finalizeSession` always posts the session with the trigger-remote-analysis
flag set, and it begins result retrieval (a `pollStarted` effect) exactly
when the triggered save succeeded or the session has at least one entry — so
a zero-entry session still starts polling whenever the save succeeds. -/
theorem finalize_save_and_polling (st : SMState) (saveOk : Bool)
    (hen : st.autoSaveEnabled = true) (hnp : st.isPolling = false) :
    SMEffect.backendSave st.sessionId st.entries.length true ∈
      (finalizeSession st saveOk).2 ∧
    (SMEffect.pollStarted st.sessionId ∈ (finalizeSession st saveOk).2 ↔
      (saveOk = true ∨ st.entries ≠ [])) := by
  have hstart : pollResultsStart st st.sessionId =
      (⟨st.sessionId, st.entries, st.autoSaveEnabled, true, some st.sessionId⟩,
       [SMEffect.pollStarted st.sessionId]) := by
    unfold pollResultsStart
    rw [if_neg (by simp [hnp])]
  cases saveOk with
  | false =>
      have ha : autoSave st true false =
          (st, [SMEffect.storageWrite st.sessionId st.entries.length,
                SMEffect.backendSave st.sessionId st.entries.length true]) := by
        unfold autoSave
        rw [if_neg (by simp [hen]), if_neg (by simp)]
      cases hel : st.entries with
      | nil =>
          unfold finalizeSession
          rw [ha]
          simp [hel]
      | cons e rest =>
          unfold finalizeSession
          rw [ha]
          simp only [hel, List.length_cons, Nat.zero_lt_succ, if_pos]
          rw [hstart]
          simp
  | true =>
      have ha : autoSave st true true =
          (⟨st.sessionId, st.entries, st.autoSaveEnabled, true, some st.sessionId⟩,
           [SMEffect.storageWrite st.sessionId st.entries.length,
            SMEffect.backendSave st.sessionId st.entries.length true,
            SMEffect.pollStarted st.sessionId]) := by
        unfold autoSave
        rw [if_neg (by simp [hen]), if_pos (by simp), hstart]
        rfl
      have hnoop : pollResultsStart
          (⟨st.sessionId, st.entries, st.autoSaveEnabled, true, some st.sessionId⟩ : SMState)
          st.sessionId =
          (⟨st.sessionId, st.entries, st.autoSaveEnabled, true, some st.sessionId⟩, []) := by
        unfold pollResultsStart
        rw [if_pos (by simp)]
      unfold finalizeSession
      rw [ha]
      by_cases hel : st.entries.length = 0
      · simp [hel]
      · rw [if_pos (by simp; omega)]
        rw [hnoop]
        simp

/-- Witness for C7 (amended) on a one-entry session whose triggered save
fails: the save is still posted with the trigger flag and polling starts
because an entry exists. -/
theorem finalize_save_and_polling_witness :
    SMEffect.backendSave 7 1 true ∈
      (finalizeSession ⟨7, [⟨⟨IdTag.sub, 1, 2⟩, 1, "audio", none, "en", "hi",
        some "hi", 1, none, none, none, none⟩], true, false, none⟩ false).2 ∧
    (SMEffect.pollStarted 7 ∈
      (finalizeSession ⟨7, [⟨⟨IdTag.sub, 1, 2⟩, 1, "audio", none, "en", "hi",
        some "hi", 1, none, none, none, none⟩], true, false, none⟩ false).2 ↔
      (false = true ∨
        ([⟨⟨IdTag.sub, 1, 2⟩, 1, "audio", none, "en", "hi", some "hi", 1, none,
          none, none, none⟩] : List SMEntry) ≠ [])) :=
  finalize_save_and_polling ⟨7, [⟨⟨IdTag.sub, 1, 2⟩, 1, "audio", none, "en",
    "hi", some "hi", 1, none, none, none, none⟩], true, false, none⟩ false rfl rfl

/-! ### Keyframe sweep (`handleExtractKeyframes`, content.js)

The sweep records `originalTime` / `originalPaused`, pauses the video, steps
`time = 0, 3, 6, …` while `time < duration` (seeking with a bounded wait that
proceeds on timeout, capturing via `captureFrame`, persisting via
`/api/save-image`; every per-step failure is caught and skipped), and then
restores: `video.currentTime = originalTime; if (!originalPaused)
video.play()`.  The media element is modelled by its playback position and
paused flag; per-step outcomes are an explicit environment. -/

/-- Observable playback state of the media element. -/
structure MediaState where
  currentTime : ℚ
  paused : Bool
deriving DecidableEq, Repr

/-- Environment outcomes of one sweep step: whether `captureFrame` returned a
frame (it returns `null` on failure), whether the `/api/save-image` post
succeeded, the returned relative path, and the step's `Date.now()`. -/
structure StepEnv where
  captureOk : Bool
  saveOk : Bool
  path : String
  now : Nat
deriving DecidableEq, Repr

/-- Keyframe record pushed after a successful capture-and-persist:
`{ image_id: keyframe_${Date.now()}_${Math.floor(time)}, image_path,
timestamp }`. -/
structure Keyframe where
  image_id : Nat × Int
  image_path : String
  timestamp : ℚ
deriving DecidableEq, Repr

/-- Step times of the loop `for (let time = 0; time < duration; time += 3)`. -/
def keyframeTimes (duration : ℚ) : List ℚ :=
  (List.range (Nat.ceil (duration / 3))).map (fun k => 3 * (k : ℚ))

/-- One loop iteration: the seek assigns `video.currentTime = time` (also
when the seeked wait times out); a keyframe is recorded only when both the
capture and the persistence succeed; any failure is logged and skipped. -/
def sweepStep (v : MediaState) (t : ℚ) (env : StepEnv) :
    MediaState × List Keyframe :=
  ({ v with currentTime := t },
   if env.captureOk then
     if env.saveOk then [⟨(env.now, ⌊t⌋), env.path, t⟩] else []
   else [])

/-- The whole extraction loop over the remaining step times, threading the
media state and collecting recorded keyframes. -/
def sweepLoop (envs : Nat → StepEnv) :
    MediaState → Nat → List ℚ → MediaState × List Keyframe
  | v, _, [] => (v, [])
  | v, i, t :: ts =>
      ((sweepLoop envs (sweepStep v t (envs i)).1 (i + 1) ts).1,
       (sweepStep v t (envs i)).2 ++
         (sweepLoop envs (sweepStep v t (envs i)).1 (i + 1) ts).2)

/-- Model of `handleExtractKeyframes` on the media element: bail out when the
duration is unavailable; otherwise pause, run the sweep, and restore —
`currentTime` is set back to the original value and `play()` is called
exactly when the video was originally playing. -/
def handleExtractKeyframes (v : MediaState) (duration : ℚ)
    (envs : Nat → StepEnv) : MediaState × List Keyframe :=
  if duration = 0 then (v, [])
  else
    ({ currentTime := v.currentTime,
       paused := if v.paused = false then false
         else (sweepLoop envs { v with paused := true } 0
           (keyframeTimes duration)).1.paused },
     (sweepLoop envs { v with paused := true } 0 (keyframeTimes duration)).2)

theorem sweepLoop_paused (envs : Nat → StepEnv) :
    ∀ (ts : List ℚ) (w : MediaState) (i : Nat),
      (sweepLoop envs w i ts).1.paused = w.paused := by
  intro ts
  induction ts with
  | nil => intro w i; rfl
  | cons t ts ih =>
      intro w i
      show (sweepLoop envs (sweepStep w t (envs i)).1 (i + 1) ts).1.paused =
        w.paused
      rw [ih]
      rfl

/-- C9: after a keyframe sweep completes, the media element's playback
position and paused/playing state equal their pre-sweep values, for every
duration and every combination of per-step outcomes (seek timeouts, capture
failures and persistence failures included). -/
theorem keyframe_sweep_restores_media (v : MediaState) (duration : ℚ)
    (envs : Nat → StepEnv) :
    (handleExtractKeyframes v duration envs).1 = v := by
  obtain ⟨c, p⟩ := v
  unfold handleExtractKeyframes
  split
  · rfl
  · rw [sweepLoop_paused]
    cases p <;> rfl

end Credify
